import Mathlib

/-!
Shallow embedding of `remove_junk_files.py`: a directory-tree sanitizer that
classifies junk files by name/pattern, deletes them, deletes provenance-marker
files, and strips extended attributes via platform-dispatched backends.

The filesystem is modelled abstractly as a set of regular-file paths plus a set
of (path, attribute-name) pairs.  OS calls that can fail for external reasons
(`os.remove`, `xattr -d`, `setfattr -x`) are parametrised by an `Oracle` that
says whether each call succeeds; a call whose failure the code swallows with
`try/except` is modelled as returning its failure boolean.  Backend subprocess
invocations are recorded in a call trace so that statements of the form
"without invoking any backend tool" are expressible.
-/

namespace RemoveJunkFiles

/-- Abstract filesystem state: the set of regular files, and the set of
(path, extended-attribute-name) pairs currently present. -/
structure FS where
  files : List String
  attrs : List (String × String)
deriving DecidableEq, Repr

/-- Model of `os.path.isfile` on the abstract filesystem. -/
def FS.isfile (fs : FS) (p : String) : Bool :=
  fs.files.contains p

/-- Whether extended attribute `a` is present on path `p`; this is what a
successful `xattr -p` / `getfattr --only-values` probe (exit status 0)
reports. -/
def FS.hasAttr (fs : FS) (p a : String) : Bool :=
  fs.attrs.contains (p, a)

/-- Effect of a successful `os.remove`. -/
def FS.removeFile (fs : FS) (p : String) : FS :=
  { fs with files := fs.files.filter (fun q => q != p) }

/-- Effect of a successful `xattr -d` / `setfattr -x`. -/
def FS.removeAttr (fs : FS) (p a : String) : FS :=
  { fs with attrs := fs.attrs.filter (fun x => x != (p, a)) }

/-- Success oracle for the OS calls whose failures the code catches:
`removeOk p` is whether `os.remove(p)` succeeds, `attrRemoveOk p a` whether
the attribute-deletion subprocess (`xattr -d` / `setfattr -x`) succeeds. -/
structure Oracle where
  removeOk : String → Bool
  attrRemoveOk : String → String → Bool

/-- Operating-system identity, `platform.system()` sampled once at start
(`IS_MAC` / `IS_LINUX` / anything else). -/
inductive OSKind where
  | mac
  | linux
  | other
deriving DecidableEq, Repr

/-- A backend subprocess invocation, for the call trace. -/
inductive Cmd where
  | xattrProbe (attr path : String)
  | xattrDelete (attr path : String)
  | getfattrProbe (attr path : String)
  | setfattrDelete (attr path : String)
deriving DecidableEq, Repr

/-- List `JUNK_FILES` from the source: exact basenames (Python `in` on a list is
equality membership). -/
def JUNK_FILES : List String :=
  [".DS_Store", "Thumbs.db", "desktop.ini",
   ".AppleDouble", ".LSOverride", ".Trash-*",
   ".fseventsd", ".Spotlight-V100", ".DocumentRevisions-V100",
   ".TemporaryItems", "lost+found", ".directory"]

/-- List `JUNK_PATTERNS` from the source: glob patterns for `fnmatch.fnmatch`. -/
def JUNK_PATTERNS : List String :=
  ["._*", "*.swp", "*.swo", "*.tmp", "*.bak", "*~", ".nfs*"]

/-- Matcher for POSIX `fnmatch.fnmatch` (pattern versus name) on character lists.  `*` matches
any (possibly empty) sequence (equivalently: the rest of the pattern matches
some suffix of the name), `?` any single character, every other character
only itself; the whole name must be consumed (Python anchors the translated
regex).  The fixed `JUNK_PATTERNS` use only literals and `*`, so bracket
character classes are not needed. -/
def globMatch : List Char → List Char → Bool
  | [], s => s.isEmpty
  | '*' :: ps, s => s.tails.any (fun t => globMatch ps t)
  | p :: ps, s =>
    match s with
    | [] => false
    | c :: cs => (p == '?' || p == c) && globMatch ps cs

/-- Model of `fnmatch.fnmatch(name, pattern)` (case-sensitive, as on POSIX). -/
def fnmatch (name pattern : String) : Bool :=
  globMatch pattern.toList name.toList

/-- Whether `small` is a leading segment of `big` (character-list version of
Python string slicing used to define substring containment). -/
def leadMatch : List Char → List Char → Bool
  | [], _ => true
  | _ :: _, [] => false
  | a :: as, b :: bs => a == b && leadMatch as bs

/-- Substring search on character lists. -/
def hasSub (needle : List Char) : List Char → Bool
  | [] => leadMatch needle []
  | c :: cs => leadMatch needle (c :: cs) || hasSub needle cs

/-- Python `needle in hay` on strings: substring containment. -/
def strContains (hay needle : String) : Bool :=
  hasSub needle.toList hay.toList

/-- Model of `os.path.basename`: everything after the last `/` (posixpath slices the
path after the final separator). -/
def basenameOf (p : String) : String :=
  String.mk ((p.toList.reverse.takeWhile (fun c => c != '/')).reverse)

/-- The junk test on line 84 of the source, the spec's
`classify(basename)`: exact membership in `JUNK_FILES` or an `fnmatch`
against some pattern in `JUNK_PATTERNS`. -/
def classify (basename : String) : Bool :=
  JUNK_FILES.contains basename ||
    JUNK_PATTERNS.any (fun pattern => fnmatch basename pattern)

/-- Function `remove_xattr_mac(file_path, attr_name)`: probe with `xattr -p`; on exit
status 0 run `xattr -d` (its outcome ignored) and return `True`, else return
`False`.  Returns (result, new filesystem, subprocess trace). -/
def remove_xattr_mac (o : Oracle) (fs : FS) (file_path attr_name : String) :
    Bool × FS × List Cmd :=
  if fs.hasAttr file_path attr_name then
    (true,
     (if o.attrRemoveOk file_path attr_name then fs.removeAttr file_path attr_name else fs),
     [Cmd.xattrProbe attr_name file_path, Cmd.xattrDelete attr_name file_path])
  else
    (false, fs, [Cmd.xattrProbe attr_name file_path])

/-- Function `remove_attr_linux(file_path, attr_name)`: probe with
`getfattr --only-values -n`; on exit status 0 run `setfattr -x` (its outcome
ignored) and return `True`, else return `False`. -/
def remove_attr_linux (o : Oracle) (fs : FS) (file_path attr_name : String) :
    Bool × FS × List Cmd :=
  if fs.hasAttr file_path attr_name then
    (true,
     (if o.attrRemoveOk file_path attr_name then fs.removeAttr file_path attr_name else fs),
     [Cmd.getfattrProbe attr_name file_path, Cmd.setfattrDelete attr_name file_path])
  else
    (false, fs, [Cmd.getfattrProbe attr_name file_path])

/-- Function `remove_attr(file_path, attr_name, dry_run)`: gate on `os.path.isfile`,
then on `dry_run`, then dispatch on the platform sampled at start; any other
OS returns `False`. -/
def remove_attr (plat : OSKind) (o : Oracle) (fs : FS)
    (file_path attr_name : String) (dry_run : Bool) : Bool × FS × List Cmd :=
  if !fs.isfile file_path then
    (false, fs, [])
  else if dry_run then
    (true, fs, [])
  else
    match plat with
    | .mac => remove_xattr_mac o fs file_path attr_name
    | .linux => remove_attr_linux o fs file_path attr_name
    | .other => (false, fs, [])

/-- Function `remove_file(file_path, dry_run)`: gate on `os.path.isfile`; dry run
returns `True` without deleting; a real run calls `os.remove`, returning
`True` on success and `False` when the call raises (failure swallowed by the
`except` clause, filesystem unchanged). -/
def remove_file (o : Oracle) (fs : FS) (file_path : String) (dry_run : Bool) :
    Bool × FS :=
  if !fs.isfile file_path then
    (false, fs)
  else if dry_run then
    (true, fs)
  else if o.removeOk file_path then
    (true, fs.removeFile file_path)
  else
    (false, fs)

/-- The fields of `args` that `process_file` reads. -/
structure Args where
  dry_run : Bool
  attr : List String
deriving Repr

/-- The per-task result record `deleted`. -/
structure Outcome where
  file : Bool
  attrs : List String
  junk : Bool
deriving DecidableEq, Repr

/-- The attribute sweep: `for attr in ["user.Zone.Identifier"] + args.attr:`
appending each attribute for which `remove_attr` returned `True`, in sweep
order, while threading the filesystem. -/
def attrSweep (plat : OSKind) (o : Oracle) (fs : FS) (file_path : String)
    (dry_run : Bool) : List String → List String × FS
  | [] => ([], fs)
  | a :: rest =>
    let r := remove_attr plat o fs file_path a dry_run
    let tail := attrSweep plat o r.2.1 file_path dry_run rest
    ((if r.1 then a :: tail.1 else tail.1), tail.2)

/-- Function `process_file(file_path, args)`: junk check and deletion, provenance-marker
(`":Zone.Identifier"` substring) check and deletion, then the attribute sweep;
returns the new filesystem together with the source's `(file_path, deleted)`
pair. -/
def process_file (plat : OSKind) (o : Oracle) (fs : FS) (file_path : String)
    (args : Args) : FS × String × Outcome :=
  let basename := basenameOf file_path
  let junkStep :=
    if classify basename then
      remove_file o fs file_path args.dry_run
    else
      (false, fs)
  let fileStep :=
    if strContains file_path ":Zone.Identifier" then
      remove_file o junkStep.2 file_path args.dry_run
    else
      (false, junkStep.2)
  let sweep := attrSweep plat o fileStep.2 file_path args.dry_run
    ("user.Zone.Identifier" :: args.attr)
  (sweep.2, file_path,
    { file := fileStep.1, attrs := sweep.1, junk := junkStep.1 })

/-- Sequential model of mapping `process_file` over the collected task list,
threading the filesystem and collecting the `(file_path, deleted)` results in
order. -/
def runPipeline (plat : OSKind) (o : Oracle) (args : Args) (fs : FS) :
    List String → FS × List (String × Outcome)
  | [] => (fs, [])
  | p :: ps =>
    let r := process_file plat o fs p args
    let rest := runPipeline plat o args r.1 ps
    (rest.1, r.2 :: rest.2)

/-- The scheduler's consumption loop in `main`: results arrive as a stream;
before aggregating the result at position `i` the loop reads the interrupt
flag (modelled as a predicate on positions) and, if set, breaks, dropping that
result and all later ones.  A consumed result is appended to `results`, and,
when the summary flag is on and any outcome field is truthy, its path to
`summary`.  Returns (results, summary). -/
def mainLoop (flag : Nat → Bool) (summaryFlag : Bool) :
    List (String × Outcome) → Nat → List (String × Outcome) × List String
  | [], _ => ([], [])
  | r :: rest, i =>
    if flag i then
      ([], [])
    else
      let t := mainLoop flag summaryFlag rest (i + 1)
      (r :: t.1,
       (if summaryFlag && (r.2.file || r.2.junk || !r.2.attrs.isEmpty)
        then r.1 :: t.2 else t.2))

/-- Tally `file_count = sum(1 for _, d in results if d['file'])`. -/
def file_count (results : List (String × Outcome)) : Nat :=
  results.foldl (fun n r => if r.2.file then n + 1 else n) 0

/-- Tally `attr_count = sum(len(d['attrs']) for _, d in results)`. -/
def attr_count (results : List (String × Outcome)) : Nat :=
  results.foldl (fun n r => n + r.2.attrs.length) 0

/-- Tally `junk_count = sum(1 for _, d in results if d['junk'])`. -/
def junk_count (results : List (String × Outcome)) : Nat :=
  results.foldl (fun n r => if r.2.junk then n + 1 else n) 0

/-! ### Helper lemmas -/

theorem isfile_iff_mem (fs : FS) (p : String) :
    fs.isfile p = true ↔ p ∈ fs.files :=
  List.elem_iff

theorem isfile_removeFile_self (fs : FS) (p : String) :
    (fs.removeFile p).isfile p = false := by
  have h : ¬ ((fs.removeFile p).isfile p = true) := by
    rw [isfile_iff_mem]
    simp [FS.removeFile, List.mem_filter]
  simpa using h

theorem isfile_removeFile_other (fs : FS) (p q : String) (hne : q ≠ p) :
    (fs.removeFile p).isfile q = fs.isfile q := by
  have h : ((fs.removeFile p).isfile q = true) ↔ (fs.isfile q = true) := by
    rw [isfile_iff_mem, isfile_iff_mem]
    simp [FS.removeFile, List.mem_filter, hne]
  exact Bool.eq_iff_iff.mpr h

/-- The first component of `remove_file` as a boolean formula. -/
theorem remove_file_fst (o : Oracle) (fs : FS) (p : String) (dry : Bool) :
    (remove_file o fs p dry).1 = (fs.isfile p && (dry || o.removeOk p)) := by
  unfold remove_file
  rcases h : fs.isfile p with _ | _ <;> rcases dry with _ | _ <;>
    simp [h] <;> rcases o.removeOk p with _ | _ <;> simp

/-- The filesystem component of `remove_file`. -/
theorem remove_file_snd (o : Oracle) (fs : FS) (p : String) (dry : Bool) :
    (remove_file o fs p dry).2 =
      (if fs.isfile p && !dry && o.removeOk p then fs.removeFile p else fs) := by
  unfold remove_file
  rcases h : fs.isfile p with _ | _ <;> rcases dry with _ | _ <;>
    simp [h] <;> rcases hok : o.removeOk p with _ | _ <;> simp [hok]

theorem remove_attr_files_eq (plat : OSKind) (o : Oracle) (fs : FS)
    (p a : String) (dry : Bool) :
    ((remove_attr plat o fs p a dry).2.1).files = fs.files := by
  unfold remove_attr remove_xattr_mac remove_attr_linux
  rcases fs.isfile p with _ | _ <;> rcases dry with _ | _ <;>
    rcases plat with _ | _ | _ <;>
    rcases fs.hasAttr p a with _ | _ <;>
    rcases o.attrRemoveOk p a with _ | _ <;>
    simp [FS.removeAttr]

theorem remove_attr_isfile_eq (plat : OSKind) (o : Oracle) (fs : FS)
    (p a q : String) (dry : Bool) :
    ((remove_attr plat o fs p a dry).2.1).isfile q = fs.isfile q := by
  unfold FS.isfile
  rw [remove_attr_files_eq]

theorem attrSweep_files_eq (plat : OSKind) (o : Oracle) (p : String)
    (dry : Bool) : ∀ (l : List String) (fs : FS),
    ((attrSweep plat o fs p dry l).2).files = fs.files := by
  intro l
  induction l with
  | nil => intro fs; rfl
  | cons a rest ih =>
    intro fs
    unfold attrSweep
    rw [ih, remove_attr_files_eq]

theorem attrSweep_isfile_eq (plat : OSKind) (o : Oracle) (p q : String)
    (dry : Bool) (l : List String) (fs : FS) :
    ((attrSweep plat o fs p dry l).2).isfile q = fs.isfile q := by
  unfold FS.isfile
  rw [attrSweep_files_eq]

/-- The `junk` field of the outcome of `process_file`. -/
theorem process_file_junk (plat : OSKind) (o : Oracle) (fs : FS) (p : String)
    (args : Args) :
    (process_file plat o fs p args).2.2.junk =
      (if classify (basenameOf p) then (remove_file o fs p args.dry_run).1
       else false) := by
  unfold process_file
  rcases hc : classify (basenameOf p) with _ | _ <;> simp [hc]

/-- The filesystem state after the junk-deletion step of `process_file`. -/
def fsAfterJunk (o : Oracle) (fs : FS) (p : String) (args : Args) : FS :=
  if classify (basenameOf p) then (remove_file o fs p args.dry_run).2 else fs

/-- The filesystem state after the provenance-marker step of `process_file`. -/
def fsAfterZone (o : Oracle) (fs : FS) (p : String) (args : Args) : FS :=
  if strContains p ":Zone.Identifier" then
    (remove_file o (fsAfterJunk o fs p args) p args.dry_run).2
  else fsAfterJunk o fs p args

/-- The `file` field of the outcome of `process_file`. -/
theorem process_file_file (plat : OSKind) (o : Oracle) (fs : FS) (p : String)
    (args : Args) :
    (process_file plat o fs p args).2.2.file =
      (if strContains p ":Zone.Identifier" then
        (remove_file o (fsAfterJunk o fs p args) p args.dry_run).1
       else false) := by
  unfold process_file fsAfterJunk
  rcases hc : classify (basenameOf p) with _ | _ <;>
    rcases hz : strContains p ":Zone.Identifier" with _ | _ <;> simp [hc, hz]

/-- The `attrs` field of the outcome of `process_file`. -/
theorem process_file_attrs (plat : OSKind) (o : Oracle) (fs : FS) (p : String)
    (args : Args) :
    (process_file plat o fs p args).2.2.attrs =
      (attrSweep plat o (fsAfterZone o fs p args) p args.dry_run
        ("user.Zone.Identifier" :: args.attr)).1 := by
  unfold process_file fsAfterZone fsAfterJunk
  rcases hc : classify (basenameOf p) with _ | _ <;>
    rcases hz : strContains p ":Zone.Identifier" with _ | _ <;> simp [hc, hz]

/-- The filesystem result of `process_file`. -/
theorem process_file_fs (plat : OSKind) (o : Oracle) (fs : FS) (p : String)
    (args : Args) :
    (process_file plat o fs p args).1 =
      (attrSweep plat o (fsAfterZone o fs p args) p args.dry_run
        ("user.Zone.Identifier" :: args.attr)).2 := by
  unfold process_file fsAfterZone fsAfterJunk
  rcases hc : classify (basenameOf p) with _ | _ <;>
    rcases hz : strContains p ":Zone.Identifier" with _ | _ <;> simp [hc, hz]

/-- The path component of the result of `process_file`. -/
theorem process_file_path (plat : OSKind) (o : Oracle) (fs : FS) (p : String)
    (args : Args) : (process_file plat o fs p args).2.1 = p := by
  unfold process_file
  rcases hc : classify (basenameOf p) with _ | _ <;> simp [hc]

/-! ### Claim theorems -/

/-- C3: for every basename string, `classify(basename)` returns true if and
only if the basename exactly equals a member of the fixed junk-name set
`JUNK_FILES` or matches at least one glob pattern of `JUNK_PATTERNS` under
`fnmatch`; matching is case-sensitive (witnessed by the `.DS_Store` versus
`.ds_store` conjuncts), and the check is a pure function of the basename. -/
theorem classify_iff_junk_name_or_pattern (b : String) :
    (classify b = true ↔
      b ∈ JUNK_FILES ∨ ∃ pat ∈ JUNK_PATTERNS, fnmatch b pat = true) ∧
    classify ".DS_Store" = true ∧ classify ".ds_store" = false := by
  refine ⟨?_, by decide, by decide⟩
  simp [classify, List.any_eq_true, List.elem_iff]

/-- C9: the entry `.Trash-*` sits in the exact-name list `JUNK_FILES`, not in
the glob-pattern list `JUNK_PATTERNS`, so it is compared by string equality:
`.Trash-1000` is not classified as junk (and matches no other built-in rule),
while a file literally named `.Trash-*` is. -/
theorem trash_star_entry_is_exact_name :
    ".Trash-*" ∈ JUNK_FILES ∧ ".Trash-*" ∉ JUNK_PATTERNS ∧
    classify ".Trash-1000" = false ∧ classify ".Trash-*" = true := by
  refine ⟨by decide, by decide, by decide, by decide⟩

/-- C4: `remove_file(path, dry_run)` returns false whenever the path is not
currently a regular file (also in dry-run mode); for an existing regular
file, a dry run returns true without deleting, a real run returns true and
deletes on OS success, and an OS-level failure is swallowed and yields false
with the filesystem unchanged. -/
theorem remove_file_contract (o : Oracle) (fs : FS) (p : String) (dry : Bool) :
    (fs.isfile p = false → remove_file o fs p dry = (false, fs)) ∧
    (fs.isfile p = true → remove_file o fs p true = (true, fs)) ∧
    (fs.isfile p = true → o.removeOk p = true →
      remove_file o fs p false = (true, fs.removeFile p)) ∧
    (fs.isfile p = true → o.removeOk p = false →
      remove_file o fs p false = (false, fs)) := by
  unfold remove_file
  refine ⟨fun h => by simp [h], fun h => by simp [h], fun h hok => by simp [h, hok],
    fun h hok => by simp [h, hok]⟩

/-- Witness for `remove_file_contract`: on a filesystem holding only the file
`"a"`, a nonexistent path is refused, a dry run keeps the file, and a real
run with a succeeding OS call deletes it. -/
theorem remove_file_contract_witness :
    remove_file ⟨fun _ => true, fun _ _ => true⟩ ⟨["a"], []⟩ "b" false = (false, ⟨["a"], []⟩) ∧
    remove_file ⟨fun _ => true, fun _ _ => true⟩ ⟨["a"], []⟩ "a" true = (true, ⟨["a"], []⟩) ∧
    remove_file ⟨fun _ => true, fun _ _ => true⟩ ⟨["a"], []⟩ "a" false =
      (true, FS.removeFile ⟨["a"], []⟩ "a") :=
  ⟨(remove_file_contract ⟨fun _ => true, fun _ _ => true⟩ ⟨["a"], []⟩ "b" false).1 (by decide),
   (remove_file_contract ⟨fun _ => true, fun _ _ => true⟩ ⟨["a"], []⟩ "a" false).2.1 (by decide),
   (remove_file_contract ⟨fun _ => true, fun _ _ => true⟩ ⟨["a"], []⟩ "a" false).2.2.1
     (by decide) rfl⟩

/-- C5: `remove_attr(path, name, dry_run)` returns false with no backend
invocation (empty subprocess trace) whenever the path is not a regular file;
for a regular file in dry-run mode it returns true with no backend invocation
and no probe; and on any platform other than macOS or Linux a real run
returns false. -/
theorem remove_attr_gate_contract (plat : OSKind) (o : Oracle) (fs : FS)
    (p a : String) (dry : Bool) :
    (fs.isfile p = false → remove_attr plat o fs p a dry = (false, fs, [])) ∧
    (fs.isfile p = true → remove_attr plat o fs p a true = (true, fs, [])) ∧
    (fs.isfile p = true →
      remove_attr OSKind.other o fs p a false = (false, fs, [])) := by
  unfold remove_attr
  refine ⟨fun h => by simp [h], fun h => by simp [h], fun h => by simp [h]⟩

/-- Witness for `remove_attr_gate_contract`: a nonexistent path is refused
with no subprocess run, a dry run on an existing file reports true with no
subprocess run, and a real run on an unsupported platform reports false. -/
theorem remove_attr_gate_contract_witness :
    remove_attr OSKind.mac ⟨fun _ => true, fun _ _ => true⟩ ⟨["a"], []⟩ "b" "u" false =
      (false, ⟨["a"], []⟩, []) ∧
    remove_attr OSKind.mac ⟨fun _ => true, fun _ _ => true⟩ ⟨["a"], []⟩ "a" "u" true =
      (true, ⟨["a"], []⟩, []) ∧
    remove_attr OSKind.other ⟨fun _ => true, fun _ _ => true⟩ ⟨["a"], []⟩ "a" "u" false =
      (false, ⟨["a"], []⟩, []) :=
  ⟨(remove_attr_gate_contract OSKind.mac ⟨fun _ => true, fun _ _ => true⟩ ⟨["a"], []⟩
      "b" "u" false).1 (by decide),
   (remove_attr_gate_contract OSKind.mac ⟨fun _ => true, fun _ _ => true⟩ ⟨["a"], []⟩
      "a" "u" false).2.1 (by decide),
   (remove_attr_gate_contract OSKind.other ⟨fun _ => true, fun _ _ => true⟩ ⟨["a"], []⟩
      "a" "u" false).2.2 (by decide)⟩

/-- C2: in a real run on a supported platform each backend first probes for
the attribute; the removal command appears in the subprocess trace exactly
when the probe succeeds, the boolean return value equals the probe result
(not the removal result), a failed probe leaves the filesystem untouched, and
a failed removal after a successful probe also leaves the filesystem
untouched while the return value still reports true. -/
theorem backend_returns_probe_result (o : Oracle) (fs : FS) (p a : String) :
    ((remove_xattr_mac o fs p a).1 = fs.hasAttr p a) ∧
    ((remove_attr_linux o fs p a).1 = fs.hasAttr p a) ∧
    (fs.isfile p = true →
      (remove_attr OSKind.mac o fs p a false).1 = fs.hasAttr p a ∧
      (remove_attr OSKind.linux o fs p a false).1 = fs.hasAttr p a) ∧
    (Cmd.xattrDelete a p ∈ (remove_xattr_mac o fs p a).2.2 ↔ fs.hasAttr p a = true) ∧
    (Cmd.setfattrDelete a p ∈ (remove_attr_linux o fs p a).2.2 ↔ fs.hasAttr p a = true) ∧
    (fs.hasAttr p a = false →
      (remove_xattr_mac o fs p a).2.1 = fs ∧ (remove_attr_linux o fs p a).2.1 = fs) ∧
    (o.attrRemoveOk p a = false →
      (remove_xattr_mac o fs p a).2.1 = fs ∧ (remove_attr_linux o fs p a).2.1 = fs) := by
  unfold remove_attr remove_xattr_mac remove_attr_linux
  rcases ha : fs.hasAttr p a with _ | _ <;>
    rcases hok : o.attrRemoveOk p a with _ | _ <;>
    simp [ha, hok] <;>
    intro h <;> simp [h]

/-- Witness for `backend_returns_probe_result`: with attribute `u` present on
file `x` and a removal step that fails, the macOS backend still reports true
while the filesystem (hence the attribute) is unchanged. -/
theorem backend_returns_probe_result_witness :
    (remove_xattr_mac ⟨fun _ => true, fun _ _ => false⟩ ⟨["x"], [("x", "u")]⟩ "x" "u").1 = true ∧
    (remove_xattr_mac ⟨fun _ => true, fun _ _ => false⟩ ⟨["x"], [("x", "u")]⟩ "x" "u").2.1 =
      ⟨["x"], [("x", "u")]⟩ :=
  ⟨((backend_returns_probe_result ⟨fun _ => true, fun _ _ => false⟩
      ⟨["x"], [("x", "u")]⟩ "x" "u").1).trans (by decide),
   ((backend_returns_probe_result ⟨fun _ => true, fun _ _ => false⟩
      ⟨["x"], [("x", "u")]⟩ "x" "u").2.2.2.2.2.2 rfl).1⟩

theorem foldl_count_eq (P : (String × Outcome) → Bool)
    (l : List (String × Outcome)) : ∀ n : Nat,
    l.foldl (fun n r => if P r then n + 1 else n) n = n + (l.filter P).length := by
  induction l with
  | nil => intro n; simp
  | cons r rest ih =>
    intro n
    rcases h : P r with _ | _ <;> simp [h, ih] <;> omega

theorem foldl_sum_eq (l : List (String × Outcome)) : ∀ n : Nat,
    l.foldl (fun n r => n + r.2.attrs.length) n =
      n + (l.map (fun r => r.2.attrs.length)).sum := by
  induction l with
  | nil => intro n; simp
  | cons r rest ih => intro n; simp [ih]; omega

theorem mainLoop_summary_eq (flag : Nat → Bool) :
    ∀ (stream : List (String × Outcome)) (i : Nat),
    (mainLoop flag true stream i).2 =
      ((mainLoop flag true stream i).1.filter
        (fun r => r.2.file || r.2.junk || !r.2.attrs.isEmpty)).map Prod.fst := by
  intro stream
  induction stream with
  | nil => intro i; rfl
  | cons r rest ih =>
    intro i
    unfold mainLoop
    rcases hf : flag i with _ | _
    · rcases hc : (r.2.file || r.2.junk || !r.2.attrs.isEmpty) with _ | _ <;>
        simp [hf, hc, ih]
    · simp [hf]

/-- C10: in a non-dry run no outcome has both `junk = true` and
`file = true`: when the junk-rule deletion succeeded, the file no longer
exists at the provenance-marker check, so that second deletion reports
false. -/
theorem nondry_junk_excludes_file (plat : OSKind) (o : Oracle) (fs : FS)
    (p : String) (extra : List String) :
    (process_file plat o fs p ⟨false, extra⟩).2.2.junk = true →
    (process_file plat o fs p ⟨false, extra⟩).2.2.file = false := by
  intro hj
  rw [process_file_junk] at hj
  rw [process_file_file]
  rcases hc : classify (basenameOf p) with _ | _
  · simp [hc] at hj
  · simp only [hc, if_true] at hj
    rw [remove_file_fst] at hj
    simp only [Bool.false_or, Bool.and_eq_true] at hj
    rcases hz : strContains p ":Zone.Identifier" with _ | _
    · simp [hz]
    · simp only [hz, if_true]
      have hfj : fsAfterJunk o fs p ⟨false, extra⟩ = fs.removeFile p := by
        unfold fsAfterJunk
        rw [remove_file_snd]
        simp [hc, hj.1, hj.2]
      rw [remove_file_fst, hfj, isfile_removeFile_self]
      simp

/-- Witness for `nondry_junk_excludes_file`: the path `._a:Zone.Identifier`
matches the junk pattern `._*` and contains the provenance marker; in a real
run the junk step deletes it, so the marker step reports false. -/
theorem nondry_junk_excludes_file_witness :
    (process_file OSKind.linux ⟨fun _ => true, fun _ _ => true⟩
      ⟨["._a:Zone.Identifier"], []⟩ "._a:Zone.Identifier" ⟨false, []⟩).2.2.junk = true ∧
    (process_file OSKind.linux ⟨fun _ => true, fun _ _ => true⟩
      ⟨["._a:Zone.Identifier"], []⟩ "._a:Zone.Identifier" ⟨false, []⟩).2.2.file = false :=
  ⟨by decide,
   nondry_junk_excludes_file OSKind.linux ⟨fun _ => true, fun _ _ => true⟩
     ⟨["._a:Zone.Identifier"], []⟩ "._a:Zone.Identifier" [] (by decide)⟩

/-- C6: the printed totals are sums over exactly the aggregated outcomes:
`file_count` counts outcomes with `file = true`, `attr_count` sums the
lengths of the `attrs` lists, `junk_count` counts outcomes with
`junk = true`, and the summary list is, in aggregation order, exactly the
paths whose outcome has one of the three fields truthy. -/
theorem printed_totals_match_outcomes (flag : Nat → Bool)
    (stream : List (String × Outcome)) (i : Nat) :
    file_count (mainLoop flag true stream i).1 =
      ((mainLoop flag true stream i).1.filter (fun r => r.2.file)).length ∧
    attr_count (mainLoop flag true stream i).1 =
      ((mainLoop flag true stream i).1.map (fun r => r.2.attrs.length)).sum ∧
    junk_count (mainLoop flag true stream i).1 =
      ((mainLoop flag true stream i).1.filter (fun r => r.2.junk)).length ∧
    (mainLoop flag true stream i).2 =
      ((mainLoop flag true stream i).1.filter
        (fun r => r.2.file || r.2.junk || !r.2.attrs.isEmpty)).map Prod.fst := by
  refine ⟨?_, ?_, ?_, mainLoop_summary_eq flag stream i⟩
  · simpa using foldl_count_eq (fun r => r.2.file) (mainLoop flag true stream i).1 0
  · simpa using foldl_sum_eq (mainLoop flag true stream i).1 0
  · simpa using foldl_count_eq (fun r => r.2.junk) (mainLoop flag true stream i).1 0

/-- C7: the aggregation loop consumes a prefix of the dispatched result
stream: the aggregated list is an initial segment of the stream (so every
aggregated outcome corresponds to a dispatched task and their number is at
most the number submitted), and once the interrupt flag is set at arrival
`i + m`, at most `m` results are aggregated. -/
theorem interrupt_stops_aggregation (flag : Nat → Bool) (s : Bool) :
    ∀ (stream : List (String × Outcome)) (i : Nat),
    (mainLoop flag s stream i).1 =
      stream.take (mainLoop flag s stream i).1.length ∧
    (mainLoop flag s stream i).1.length ≤ stream.length ∧
    ∀ m : Nat, flag (i + m) = true → (mainLoop flag s stream i).1.length ≤ m := by
  intro stream
  induction stream with
  | nil => intro i; simp [mainLoop]
  | cons r rest ih =>
    intro i
    unfold mainLoop
    rcases hf : flag i with _ | _
    · refine ⟨?_, ?_, ?_⟩
      · simpa [hf] using congrArg (fun l => r :: l) (ih (i + 1)).1
      · simp [hf]
        exact (ih (i + 1)).2.1
      · intro m hm
        rcases m with _ | m
        · rw [Nat.add_zero] at hm
          rw [hm] at hf
          cases hf
        · have hm2 : flag (i + 1 + m) = true := by
            have he : i + 1 + m = i + (m + 1) := by omega
            rw [he]
            exact hm
          have := (ih (i + 1)).2.2 m hm2
          simp [hf]
          omega
    · simp [hf]

/-- Witness for `interrupt_stops_aggregation`: a flag that fires from the
second arrival on limits aggregation over a three-element stream to at most
one result. -/
theorem interrupt_stops_aggregation_witness :
    (mainLoop (fun j => decide (1 ≤ j)) true
      [("a", ⟨false, [], false⟩), ("b", ⟨true, [], false⟩), ("c", ⟨true, [], true⟩)]
      0).1.length ≤ 1 :=
  (interrupt_stops_aggregation (fun j => decide (1 ≤ j)) true
    [("a", ⟨false, [], false⟩), ("b", ⟨true, [], false⟩), ("c", ⟨true, [], true⟩)]
    0).2.2 1 (by decide)

theorem remove_file_dry_snd (o : Oracle) (fs : FS) (p : String) :
    (remove_file o fs p true).2 = fs := by
  rw [remove_file_snd]
  simp

theorem remove_attr_dry_snd (plat : OSKind) (o : Oracle) (fs : FS)
    (p a : String) : (remove_attr plat o fs p a true).2.1 = fs := by
  unfold remove_attr
  rcases h : fs.isfile p with _ | _ <;> simp [h]

theorem attrSweep_dry_snd (plat : OSKind) (o : Oracle) (p : String) :
    ∀ (l : List String) (fs : FS), (attrSweep plat o fs p true l).2 = fs := by
  intro l
  induction l with
  | nil => intro fs; rfl
  | cons a rest ih =>
    intro fs
    unfold attrSweep
    rw [ih, remove_attr_dry_snd]

/-- C1 counterexample: the path `._a:Zone.Identifier` currently exists as a
regular file and qualifies both for the junk rule `._*` and for the
provenance-marker check, yet the dry-run outcome has `file = true` while the
real run (all OS calls succeeding) produces `file = false`, because the junk
step already deleted the file.  So a dry run does not always produce the same
outcome booleans as a real run on the same state. -/
theorem dry_run_same_booleans_cex :
    FS.isfile ⟨["._a:Zone.Identifier"], []⟩ "._a:Zone.Identifier" = true ∧
    classify (basenameOf "._a:Zone.Identifier") = true ∧
    strContains "._a:Zone.Identifier" ":Zone.Identifier" = true ∧
    (process_file OSKind.linux ⟨fun _ => true, fun _ _ => true⟩
      ⟨["._a:Zone.Identifier"], []⟩ "._a:Zone.Identifier" ⟨true, []⟩).2.2.file = true ∧
    (process_file OSKind.linux ⟨fun _ => true, fun _ _ => true⟩
      ⟨["._a:Zone.Identifier"], []⟩ "._a:Zone.Identifier" ⟨false, []⟩).2.2.file = false :=
  ⟨by decide, by decide, by decide, by decide, by decide⟩

/-- C1 (amended): a dry run never mutates the filesystem; and whenever the
real `os.remove` would succeed and the path does not qualify for both
deletion steps at once (junk rule and provenance marker), the `junk` and
`file` outcome booleans of a dry run equal those of a real run on the same
filesystem state. -/
theorem dry_run_no_mutation_and_agreement (plat : OSKind) (o : Oracle)
    (fs : FS) (p : String) (extra : List String) :
    (process_file plat o fs p ⟨true, extra⟩).1 = fs ∧
    (o.removeOk p = true →
      (classify (basenameOf p) && strContains p ":Zone.Identifier") = false →
      ((process_file plat o fs p ⟨true, extra⟩).2.2.junk =
        (process_file plat o fs p ⟨false, extra⟩).2.2.junk ∧
       (process_file plat o fs p ⟨true, extra⟩).2.2.file =
        (process_file plat o fs p ⟨false, extra⟩).2.2.file)) := by
  constructor
  · rw [process_file_fs]
    have h1 : fsAfterJunk o fs p ⟨true, extra⟩ = fs := by
      unfold fsAfterJunk
      rcases hc : classify (basenameOf p) with _ | _ <;>
        simp [hc, remove_file_dry_snd]
    have h2 : fsAfterZone o fs p ⟨true, extra⟩ = fs := by
      unfold fsAfterZone
      rw [h1]
      rcases hz : strContains p ":Zone.Identifier" with _ | _ <;>
        simp [hz, remove_file_dry_snd]
    rw [h2]
    exact attrSweep_dry_snd plat o p _ fs
  · intro hok hng
    constructor
    · rw [process_file_junk, process_file_junk]
      rcases hc : classify (basenameOf p) with _ | _
      · simp [hc]
      · simp only [hc, if_true]
        rw [remove_file_fst, remove_file_fst]
        simp [hok]
    · rw [process_file_file, process_file_file]
      rcases hz : strContains p ":Zone.Identifier" with _ | _
      · simp [hz]
      · have hcf : classify (basenameOf p) = false := by
          rcases hcc : classify (basenameOf p) with _ | _
          · rfl
          · rw [hcc, hz] at hng
            cases hng
        have e1 : fsAfterJunk o fs p ⟨true, extra⟩ = fs := by
          unfold fsAfterJunk
          simp [hcf]
        have e2 : fsAfterJunk o fs p ⟨false, extra⟩ = fs := by
          unfold fsAfterJunk
          simp [hcf]
        simp only [hz, if_true]
        rw [e1, e2, remove_file_fst, remove_file_fst]
        simp [hok]

/-- Witness for `dry_run_no_mutation_and_agreement`: for the junk file
`.DS_Store` (no provenance marker) with a succeeding OS, the dry-run and
real-run `junk` booleans coincide. -/
theorem dry_run_no_mutation_and_agreement_witness :
    (process_file OSKind.linux ⟨fun _ => true, fun _ _ => true⟩
      ⟨[".DS_Store"], []⟩ ".DS_Store" ⟨true, []⟩).2.2.junk =
    (process_file OSKind.linux ⟨fun _ => true, fun _ _ => true⟩
      ⟨[".DS_Store"], []⟩ ".DS_Store" ⟨false, []⟩).2.2.junk :=
  ((dry_run_no_mutation_and_agreement OSKind.linux ⟨fun _ => true, fun _ _ => true⟩
    ⟨[".DS_Store"], []⟩ ".DS_Store" []).2 rfl (by decide)).1

theorem remove_file_isfile_mono (o : Oracle) (fs : FS) (p q : String)
    (dry : Bool) :
    (remove_file o fs p dry).2.isfile q = true → fs.isfile q = true := by
  rw [remove_file_snd]
  rcases hcond : (fs.isfile p && !dry && o.removeOk p) with _ | _
  · simp [hcond]
  · simp only [hcond, if_true]
    intro h
    by_cases hqp : q = p
    · subst hqp
      rw [isfile_removeFile_self] at h
      cases h
    · rw [isfile_removeFile_other fs p q hqp] at h
      exact h

theorem process_file_isfile_mono (plat : OSKind) (o : Oracle) (fs : FS)
    (p q : String) (args : Args) :
    (process_file plat o fs p args).1.isfile q = true → fs.isfile q = true := by
  rw [process_file_fs, attrSweep_isfile_eq]
  unfold fsAfterZone fsAfterJunk
  rcases hc : classify (basenameOf p) with _ | _ <;>
    rcases hz : strContains p ":Zone.Identifier" with _ | _ <;>
    simp only [hc, hz, Bool.false_eq_true, if_true, if_false] <;>
    intro h
  · exact h
  · exact remove_file_isfile_mono o fs p q args.dry_run h
  · exact remove_file_isfile_mono o fs p q args.dry_run h
  · exact remove_file_isfile_mono o fs p q args.dry_run
      (remove_file_isfile_mono o _ p q args.dry_run h)

theorem runPipeline_isfile_mono (plat : OSKind) (o : Oracle) (args : Args)
    (q : String) : ∀ (paths : List String) (fs : FS),
    (runPipeline plat o args fs paths).1.isfile q = true →
    fs.isfile q = true := by
  intro paths
  induction paths with
  | nil => intro fs h; exact h
  | cons p rest ih =>
    intro fs h
    simp only [runPipeline] at h
    exact process_file_isfile_mono plat o fs p q args (ih _ h)

/-- In a real run whose `os.remove` succeeds, a path that matches the junk
rule or contains the provenance marker is gone from the filesystem after its
own task. -/
theorem process_file_removes_self (plat : OSKind) (o : Oracle) (fs : FS)
    (p : String) (extra : List String) :
    o.removeOk p = true →
    (classify (basenameOf p) || strContains p ":Zone.Identifier") = true →
    (process_file plat o fs p ⟨false, extra⟩).1.isfile p = false := by
  intro hok hg
  rw [process_file_fs, attrSweep_isfile_eq]
  unfold fsAfterZone fsAfterJunk
  rcases hc : classify (basenameOf p) with _ | _
  · have hz : strContains p ":Zone.Identifier" = true := by simpa [hc] using hg
    simp only [hc, hz, if_true, if_false]
    rw [remove_file_snd]
    rcases hif : fs.isfile p with _ | _
    · simp [hif]
    · simp [hif, hok, isfile_removeFile_self]
  · simp only [hc, if_true]
    rcases hz : strContains p ":Zone.Identifier" with _ | _
    · simp only [hz, Bool.false_eq_true, if_false]
      rw [remove_file_snd]
      rcases hif : fs.isfile p with _ | _
      · simp [hif]
      · simp [hif, hok, isfile_removeFile_self]
    · simp only [hz, if_true]
      rw [remove_file_snd, remove_file_snd]
      rcases hif : fs.isfile p with _ | _
      · simp [hif]
      · simp [hif, hok, isfile_removeFile_self]

/-- A path that survives the whole run while having been on the task list can
only have survived because its `os.remove` fails (when it matches a deletion
rule at all). -/
theorem runPipeline_survivor_not_removable (plat : OSKind) (o : Oracle)
    (extra : List String) : ∀ (paths : List String) (fs : FS) (p : String),
    p ∈ paths →
    (runPipeline plat o ⟨false, extra⟩ fs paths).1.isfile p = true →
    (classify (basenameOf p) || strContains p ":Zone.Identifier") = true →
    o.removeOk p = false := by
  intro paths
  induction paths with
  | nil => intro fs p hp; cases hp
  | cons q rest ih =>
    intro fs p hp hs hg
    simp only [runPipeline] at hs
    rcases List.mem_cons.mp hp with hq | hrest
    · subst hq
      rcases hok : o.removeOk p with _ | _
      · rfl
      · exfalso
        have h1 : (process_file plat o fs p ⟨false, extra⟩).1.isfile p = true :=
          runPipeline_isfile_mono plat o ⟨false, extra⟩ p rest _ hs
        rw [process_file_removes_self plat o fs p extra hok hg] at h1
        cases h1
    · exact ih _ p hrest hs hg

/-- A task whose path either matches no deletion rule or whose `os.remove`
fails produces an outcome with both deletion fields false, on any filesystem
state. -/
theorem process_file_no_deletion (plat : OSKind) (o : Oracle) (fs : FS)
    (p : String) (extra : List String) :
    ((classify (basenameOf p) || strContains p ":Zone.Identifier") = true →
      o.removeOk p = false) →
    (process_file plat o fs p ⟨false, extra⟩).2.2.junk = false ∧
    (process_file plat o fs p ⟨false, extra⟩).2.2.file = false := by
  intro hprop
  constructor
  · rw [process_file_junk]
    rcases hc : classify (basenameOf p) with _ | _
    · simp [hc]
    · have hok : o.removeOk p = false := hprop (by simp [hc])
      simp only [hc, if_true]
      rw [remove_file_fst]
      simp [hok]
  · rw [process_file_file]
    rcases hz : strContains p ":Zone.Identifier" with _ | _
    · simp [hz]
    · have hok : o.removeOk p = false := hprop (by simp [hz])
      simp only [hz, if_true]
      rw [remove_file_fst]
      simp [hok]

theorem runPipeline_outcomes_no_deletion (plat : OSKind) (o : Oracle)
    (extra : List String) : ∀ (paths : List String) (fs : FS),
    (∀ p ∈ paths,
      (classify (basenameOf p) || strContains p ":Zone.Identifier") = true →
      o.removeOk p = false) →
    ∀ r ∈ (runPipeline plat o ⟨false, extra⟩ fs paths).2,
      r.2.file = false ∧ r.2.junk = false := by
  intro paths
  induction paths with
  | nil =>
    intro fs _ r hr
    simp only [runPipeline] at hr
    cases hr
  | cons q rest ih =>
    intro fs h r hr
    simp only [runPipeline] at hr
    rcases List.mem_cons.mp hr with heq | htl
    · have hq := process_file_no_deletion plat o fs q extra
        (h q (List.mem_cons_self q rest))
      rw [heq]
      exact ⟨hq.2, hq.1⟩
    · exact ih _ (fun p hp => h p (List.mem_cons_of_mem q hp)) r htl

/-- C8: running the pipeline twice in succession over the same tree in
non-dry mode yields a second run in which every outcome's deletion fields are
false.  The second task list consists of files that still exist after the
first run and were covered by it (which is what collecting the same tree
again yields): any such survivor either matches no deletion rule, or its
`os.remove` fails — and then the second run's deletion attempt fails the same
way, so `file = false` and `junk = false` in every second-run outcome. -/
theorem second_run_deletes_nothing (plat : OSKind) (o : Oracle)
    (extra : List String) (fs : FS) (paths1 paths2 : List String)
    (hsub : ∀ p ∈ paths2, p ∈ paths1)
    (hsurvive : ∀ p ∈ paths2,
      (runPipeline plat o ⟨false, extra⟩ fs paths1).1.isfile p = true) :
    ∀ r ∈ (runPipeline plat o ⟨false, extra⟩
        (runPipeline plat o ⟨false, extra⟩ fs paths1).1 paths2).2,
      r.2.file = false ∧ r.2.junk = false := by
  apply runPipeline_outcomes_no_deletion
  intro p hp hg
  exact runPipeline_survivor_not_removable plat o extra paths1 fs p
    (hsub p hp) (hsurvive p hp) hg

/-- Witness for `second_run_deletes_nothing`: a first run over
`[".DS_Store", "note.txt"]` deletes the junk file; rerunning over the
surviving `note.txt` produces its outcome with both deletion fields false. -/
theorem second_run_deletes_nothing_witness :
    ("note.txt", ({ file := false, attrs := [], junk := false } : Outcome)).2.file = false ∧
    ("note.txt", ({ file := false, attrs := [], junk := false } : Outcome)).2.junk = false :=
  second_run_deletes_nothing OSKind.linux ⟨fun _ => true, fun _ _ => true⟩ []
    ⟨[".DS_Store", "note.txt"], []⟩ [".DS_Store", "note.txt"] ["note.txt"]
    (by decide) (by decide)
    ("note.txt", { file := false, attrs := [], junk := false })
    (by decide)

end RemoveJunkFiles
